import Mathlib

/-!
Verification of the katalyst-core node-local resource advisor against its
natural-language specification.  Go code is shallowly embedded: float64
values become exact rationals, Go maps become association lists (insertion
ordered, as the algorithms only read and upsert), fallible calls return
`Option`/`Except`.  Helper functions of the repository that are absent from
the provided sources (`regulatePoolSizes`, `regulateOverlapReclaimPoolSize`,
`getNUMAsResource`, JSON/checksum primitives) are modelled from the spec and
marked as such in their doc comments.
-/

namespace Katalyst

/-- Go map read `v, ok := m[k]` over an association list. -/
def alookup [BEq κ] (m : List (κ × α)) (k : κ) : Option α :=
  (m.find? (fun p => p.1 == k)).map (fun p => p.2)

/-- Go map write `m[k] = v`: replace an existing binding in place, else append. -/
def aset [BEq κ] (m : List (κ × α)) (k : κ) (v : α) : List (κ × α) :=
  match m with
  | [] => [(k, v)]
  | p :: rest => if p.1 == k then (k, v) :: rest else p :: aset rest k v

/-- Go map accumulation `m[k] += v` (a missing key reads as zero). -/
def aadd [BEq κ] (m : List (κ × ℚ)) (k : κ) (v : ℚ) : List (κ × ℚ) :=
  aset m k ((alookup m k).getD 0 + v)

/-- Go `int64(x)` / `int(x)` conversion of a float: truncation toward zero. -/
def goTrunc (q : ℚ) : ℤ :=
  if 0 ≤ q then ⌊q⌋ else ⌈q⌉

/-! ## Memory NUMAAware headroom policy
(`pkg/.../memory/headroompolicy/policy_numa_aware.go`) -/

/-- Per-NUMA memory metrics (`mem.free.numa`, `mem.inactiveFile.numa`,
`mem.total.numa`).  A NUMA absent from the metric store fails all three
fetches. -/
structure NumaMem where
  free : ℚ
  inactiveFile : ℚ
  total : ℚ
deriving DecidableEq

/-- A reclaimed-cores container as seen by the policy: its memory request and
the NUMA keys of its `TopologyAwareAssignments`. -/
structure MemContainer where
  memoryRequest : ℚ
  numaAssignments : List Int
deriving DecidableEq

/-- All inputs read by `PolicyNUMAAware.Update`. -/
structure MemInputs where
  availNUMAs : List Int
  numaMetrics : List (Int × NumaMem)
  cacheBasedRatio : ℚ
  reservedForAllocate : ℚ
  numNUMANodes : ℕ
  reclaimedContainers : List MemContainer
  scaleFactor : Option ℚ
  allNUMAs : List Int
deriving DecidableEq

/-- The state of the per-NUMA metric loop:
`(reclaimableMemory, availNUMATotal, reservedForAllocate-accumulator,
numaReclaimableMemory)`. -/
abbrev MemAcc := ℚ × ℚ × ℚ × List (Int × ℚ)

/-- The per-available-NUMA loop of `PolicyNUMAAware.Update` (lines 94-128):
fetch free/inactiveFile/total, accumulate `reclaimableMemory`,
`availNUMATotal` and the per-NUMA reserved share, and record
`numaReclaimableMemory[numaID] = free + inactiveFile * CacheBasedRatio`.
Any failed metric fetch aborts. -/
def numaLoop (I : MemInputs) : MemAcc → List Int → Option MemAcc
  | acc, [] => some acc
  | (recl, tot, resv, m), n :: rest =>
    match alookup I.numaMetrics n with
    | none => none
    | some d =>
      numaLoop I
        (recl + (d.free + d.inactiveFile * I.cacheBasedRatio),
         tot + d.total,
         resv + I.reservedForAllocate / (I.numNUMANodes : ℚ),
         aset m n (d.free + d.inactiveFile * I.cacheBasedRatio)) rest

/-- The reclaimed-cores container loop of `PolicyNUMAAware.Update`
(lines 130-138): add each memory request to `reclaimableMemory` and split it
equally across the container's NUMA assignments. -/
def containerLoop : ℚ × List (Int × ℚ) → List MemContainer → ℚ × List (Int × ℚ)
  | acc, [] => acc
  | (recl, m), c :: rest =>
    containerLoop
      (recl + c.memoryRequest,
       if 0 < c.memoryRequest ∧ 0 < c.numaAssignments.length then
         c.numaAssignments.foldl
           (fun mm n => aadd mm n (c.memoryRequest / (c.numaAssignments.length : ℚ))) m
       else m) rest

/-- Result of a successful `PolicyNUMAAware.Update`: the float headroom, the
scaled float `numaReclaimableMemory` map and the integral `numaHeadroom`
quantity map. -/
structure MemResult where
  memoryHeadroom : ℚ
  numaRecScaled : List (Int × ℚ)
  numaHeadroom : List (Int × ℤ)
deriving DecidableEq

/-- The final loop of `PolicyNUMAAware.Update` (lines 165-170): every NUMA of
the machine that has no reclaimable data reports a zero headroom quantity. -/
def padFold (nh : List (Int × ℤ)) (l : List Int) : List (Int × ℤ) :=
  l.foldl
    (fun nh n => match alookup nh n with
      | some _ => nh
      | none => aset nh n (0 : ℤ)) nh

/-- `PolicyNUMAAware.Update` (policy_numa_aware.go lines 69-184). -/
def memUpdate (I : MemInputs) : Option MemResult :=
  match numaLoop I (0, 0, 0, []) I.availNUMAs with
  | none => none
  | some (recl0, availTotal, resv, m0) =>
    let rm := containerLoop (recl0, m0) I.reclaimedContainers
    match I.scaleFactor with
    | none => none
    | some sf =>
      let wmReserve := availTotal * sf / 10000
      let headroom := max (rm.1 - wmReserve - resv) 0
      let reduceRatio := if 0 < rm.1 then headroom / rm.1 else 0
      let scaled := rm.2.map (fun p => (p.1, p.2 * reduceRatio))
      let nh0 := scaled.map (fun p => (p.1, goTrunc p.2))
      some { memoryHeadroom := headroom, numaRecScaled := scaled,
             numaHeadroom := padFold nh0 I.allNUMAs }

/-- The metric record of a NUMA (zero when the NUMA has no data). -/
def mdat (I : MemInputs) (k : Int) : NumaMem :=
  (alookup I.numaMetrics k).getD ⟨0, 0, 0⟩

/-- `reclaim_n = free_n + inactiveFile_n * CacheBasedRatio` for one NUMA. -/
def baseReclaim (I : MemInputs) (k : Int) : ℚ :=
  (mdat I k).free + (mdat I k).inactiveFile * I.cacheBasedRatio

/-- `R`: the total reclaimable memory, per-NUMA reclaim plus the memory
requests of reclaimed-cores containers. -/
def Rspec (I : MemInputs) : ℚ :=
  (I.availNUMAs.map (baseReclaim I)).sum
    + (I.reclaimedContainers.map (fun c => c.memoryRequest)).sum

/-- `W`: the kswapd watermark reserve `Σtotal * scaleFactor / 10000`. -/
def Wspec (I : MemInputs) : ℚ :=
  (I.availNUMAs.map (fun k => (mdat I k).total)).sum * I.scaleFactor.getD 0 / 10000

/-- `A`: `reservedForAllocate / NumNUMA` summed over the available NUMAs. -/
def Aspec (I : MemInputs) : ℚ :=
  (I.availNUMAs.length : ℚ) * (I.reservedForAllocate / (I.numNUMANodes : ℚ))

/-- The share of the reclaimed-cores containers' requests landing on NUMA
`k`: each positive request is split equally across its assignments. -/
def containerShare (cs : List MemContainer) (k : Int) : ℚ :=
  (cs.map (fun c =>
    if 0 < c.memoryRequest ∧ 0 < c.numaAssignments.length ∧ k ∈ c.numaAssignments
    then c.memoryRequest / (c.numaAssignments.length : ℚ) else 0)).sum

/-- The unscaled reclaimable amount recorded for NUMA `k`. -/
def reclSpec (I : MemInputs) (k : Int) : ℚ :=
  baseReclaim I k + containerShare I.reclaimedContainers k

/-- `headroom_total = max(0, R - W - A)`. -/
def headroomSpec (I : MemInputs) : ℚ :=
  max (Rspec I - Wspec I - Aspec I) 0

/-- `scale = headroom_total / R` (`0` if the denominator is `0`). -/
def scaleSpec (I : MemInputs) : ℚ :=
  if 0 < Rspec I then headroomSpec I / Rspec I else 0

/-- The association list built by the per-NUMA metric loop. -/
def m0spec (I : MemInputs) : List (Int × ℚ) :=
  I.availNUMAs.foldl (fun m n => aset m n (baseReclaim I n)) []

/-- The association list after the reclaimed-container loop. -/
def m1spec (I : MemInputs) : List (Int × ℚ) :=
  (containerLoop ((I.availNUMAs.map (baseReclaim I)).sum, m0spec I)
    I.reclaimedContainers).2

/-- The scaled per-NUMA reclaimable map. -/
def scaledSpec (I : MemInputs) : List (Int × ℚ) :=
  (m1spec I).map (fun p => (p.1, p.2 * scaleSpec I))

/-- Closed form of a successful `memUpdate`. -/
def memResultSpec (I : MemInputs) : MemResult :=
  { memoryHeadroom := headroomSpec I
    numaRecScaled := scaledSpec I
    numaHeadroom := padFold ((scaledSpec I).map (fun p => (p.1, goTrunc p.2)))
      I.allNUMAs }

/-- Go `NumaMem` metric store of the policy state machine (claim C5):
the in-memory fields of `PolicyNUMAAware` that survive between updates. -/
structure PolicyState where
  updateStatus : Bool
  memoryHeadroom : ℚ
  numaMemoryHeadroom : List (Int × ℤ)
deriving DecidableEq

/-- `NewPolicyNUMAAware` starts with `updateStatus = PolicyUpdateFailed`. -/
def initialPolicy : PolicyState := ⟨false, 0, []⟩

/-- One `Update` call: the deferred status assignment makes the status
`PolicyUpdateSucceeded` exactly when no error occurred; all errors happen
before the headroom fields are written, so a failure leaves them intact. -/
def policyUpdateStep (s : PolicyState) (I : MemInputs) : PolicyState :=
  match memUpdate I with
  | some r => ⟨true, r.memoryHeadroom, r.numaHeadroom⟩
  | none => { s with updateStatus := false }

/-- `PolicyNUMAAware.GetHeadroom` (lines 186-192): refuses to serve unless
the last update succeeded. -/
def policyGetHeadroom (s : PolicyState) : Option (ℤ × List (Int × ℤ)) :=
  if s.updateStatus then some (goTrunc s.memoryHeadroom, s.numaMemoryHeadroom)
  else none

/-- Memory scenario 5 of the spec, on a machine with a third NUMA that has
no metric data: two available NUMAs with free 4G, inactiveFile 10G and
total 32G each, cache ratio 0.5, scale factor 100, 2G reserved for
allocation, no reclaimed containers (G = 10^9 bytes). -/
def sc5 : MemInputs :=
  { availNUMAs := [0, 1]
    numaMetrics :=
      [(0, ⟨4000000000, 10000000000, 32000000000⟩),
       (1, ⟨4000000000, 10000000000, 32000000000⟩)]
    cacheBasedRatio := 1/2
    reservedForAllocate := 2000000000
    numNUMANodes := 2
    reclaimedContainers := []
    scaleFactor := some 100
    allNUMAs := [0, 1, 2] }

/-- Doubling the `inactiveFile` metric of every NUMA, all else unchanged. -/
def doubleInactive (I : MemInputs) : MemInputs :=
  { I with
      numaMetrics := I.numaMetrics.map
        (fun p => (p.1, ⟨p.2.free, 2 * p.2.inactiveFile, p.2.total⟩)) }

/-! ## Memory plugin checkpoint
(`pkg/agent/qrm-plugins/memory/dynamicpolicy/state/checkpoint.go`).
`encoding/json` and the kubelet `checksum` package are external libraries;
they are modelled from the spec: a deterministic injective encoding into a
token list, and a 32-bit hash of the encoding with the checksum field
zeroed. -/

/-- The persisted checkpoint document (spec §4.I): policy name, per-NUMA
machine state, NUMA headroom, pod resource entries, socket topology and the
32-bit checksum. -/
structure MemoryPluginCheckpoint where
  policyName : String
  machineState : List (Int × Nat)
  numaHeadroom : List (Int × Int)
  podResourceEntries : List (String × Nat)
  socketTopology : List (Int × String)
  checksum : Nat
deriving DecidableEq

def encNat (n : ℕ) : List ℕ := [n]

def encInt (i : ℤ) : List ℕ := if 0 ≤ i then [0, i.toNat] else [1, (-i).toNat]

def encString (s : String) : List ℕ := s.length :: s.data.map Char.toNat

def encPair (e1 : α → List ℕ) (e2 : β → List ℕ) (p : α × β) : List ℕ :=
  e1 p.1 ++ e2 p.2

def encListOf (e : α → List ℕ) (xs : List α) : List ℕ :=
  xs.length :: (xs.map e).flatten

def decNat : List ℕ → Option (ℕ × List ℕ)
  | [] => none
  | n :: r => some (n, r)

def decInt : List ℕ → Option (ℤ × List ℕ)
  | 0 :: n :: r => some ((n : ℤ), r)
  | 1 :: n :: r => some (-(n : ℤ), r)
  | _ => none

def decChars : ℕ → List ℕ → Option (List Char × List ℕ)
  | 0, r => some ([], r)
  | _ + 1, [] => none
  | k + 1, n :: r => (decChars k r).map (fun p => (Char.ofNat n :: p.1, p.2))

def decStr (l : List ℕ) : Option (String × List ℕ) :=
  match decNat l with
  | none => none
  | some (n, r) => (decChars n r).map (fun p => (⟨p.1⟩, p.2))

def decPair (d1 : List ℕ → Option (α × List ℕ)) (d2 : List ℕ → Option (β × List ℕ))
    (l : List ℕ) : Option ((α × β) × List ℕ) :=
  match d1 l with
  | none => none
  | some (a, r) =>
    match d2 r with
    | none => none
    | some (b, r') => some ((a, b), r')

def decCount (d : List ℕ → Option (α × List ℕ)) :
    ℕ → List ℕ → Option (List α × List ℕ)
  | 0, r => some ([], r)
  | k + 1, r =>
    match d r with
    | none => none
    | some (a, r') => (decCount d k r').map (fun p => (a :: p.1, p.2))

def decListOf (d : List ℕ → Option (α × List ℕ)) (l : List ℕ) :
    Option (List α × List ℕ) :=
  match decNat l with
  | none => none
  | some (n, r) => decCount d n r

/-- Canonical deterministic encoding of a checkpoint (the model of the
canonical JSON document). -/
def encCheckpoint (cp : MemoryPluginCheckpoint) : List ℕ :=
  encString cp.policyName
    ++ encListOf (encPair encInt encNat) cp.machineState
    ++ encListOf (encPair encInt encInt) cp.numaHeadroom
    ++ encListOf (encPair encString encNat) cp.podResourceEntries
    ++ encListOf (encPair encInt encString) cp.socketTopology
    ++ encNat cp.checksum

def decCheckpoint (l : List ℕ) : Option (MemoryPluginCheckpoint × List ℕ) :=
  match decStr l with
  | none => none
  | some (pn, r1) =>
    match decListOf (decPair decInt decNat) r1 with
    | none => none
    | some (ms, r2) =>
      match decListOf (decPair decInt decInt) r2 with
      | none => none
      | some (nh, r3) =>
        match decListOf (decPair decStr decNat) r3 with
        | none => none
        | some (pr, r4) =>
          match decListOf (decPair decInt decStr) r4 with
          | none => none
          | some (st, r5) =>
            match decNat r5 with
            | none => none
            | some (ck, r6) => some (⟨pn, ms, nh, pr, st, ck⟩, r6)

/-- Modelled from the spec §4.I: a 32-bit hash of the canonical document. -/
def hash32 (l : List ℕ) : ℕ :=
  l.foldl (fun h b => (h * 16777619 + b + 1) % 4294967296) 2166136261

def zeroChecksum (cp : MemoryPluginCheckpoint) : MemoryPluginCheckpoint :=
  { cp with checksum := 0 }

def withChecksum (cp : MemoryPluginCheckpoint) (c : Nat) : MemoryPluginCheckpoint :=
  { cp with checksum := c }

/-- `MarshalCheckpoint`: zero the checksum, hash the canonical document,
store the hash in the checksum field and serialise. -/
def marshalCheckpoint (cp : MemoryPluginCheckpoint) : List ℕ :=
  encCheckpoint (withChecksum cp (hash32 (encCheckpoint (zeroChecksum cp))))

/-- `UnmarshalCheckpoint`: parse the whole blob back into a checkpoint. -/
def unmarshalCheckpoint (blob : List ℕ) : Option MemoryPluginCheckpoint :=
  match decCheckpoint blob with
  | some (cp, []) => some cp
  | _ => none

/-- `VerifyChecksum`: recompute the hash over the checkpoint with its
checksum field zeroed and compare with the stored checksum. -/
def verifyChecksum (cp : MemoryPluginCheckpoint) : Bool :=
  hash32 (encCheckpoint (zeroChecksum cp)) == cp.checksum

/-! ## Health registry (`pkg/util/general` healthz, src/unnamed/part_004) -/

inductive HealthzCheckState
  | Ready
  | NotReady
  | Unknown
  | Failed
deriving DecidableEq

inductive HealthzCheckMode
  | heartbeat
  | report
deriving DecidableEq

/-- `healthzCheckStatus`; Go times are modelled as integers, `0` being the
zero time. -/
structure HealthzCheckStatus where
  state : HealthzCheckState
  message : String
  lastUpdateTime : Int
  mode : HealthzCheckMode
  timeoutPeriod : Int
  unhealthyStartTime : Int
  tolerationPeriod : Int
deriving DecidableEq

/-- `healthzCheckStatus.update` (part_004 lines 64-72). -/
def healthzUpdate (h : HealthzCheckStatus) (state : HealthzCheckState)
    (message : String) (now : Int) : HealthzCheckStatus :=
  { h with
      message := message
      lastUpdateTime := now
      unhealthyStartTime :=
        if h.state = .Ready ∧ state ≠ .Ready then now else h.unhealthyStartTime
      state := state }

/-- `RegisterReportCheck` (part_004 lines 149-168): the initial entry keeps
the zero `LastUpdateTime`. -/
def registerReportCheck (timeout : Int) (initState : HealthzCheckState) :
    HealthzCheckStatus :=
  ⟨initState, "Init", 0, .report, timeout, 0, 0⟩

/-- The per-entry readiness computation of `GetRegisterReadinessCheckResult`
(part_004 lines 196-225). -/
def readinessResult (now : Int) (h : HealthzCheckStatus) : Bool × String :=
  match h.mode with
  | .heartbeat =>
    let timedOut := h.timeoutPeriod > 0 ∧ now - h.lastUpdateTime > h.timeoutPeriod
    let r1 := if timedOut then false else true
    let msg := if timedOut then "heartbeat timeout" else h.message
    let r2 := if h.tolerationPeriod ≤ 0 ∧ h.state ≠ .Ready then false else r1
    let r3 :=
      if h.tolerationPeriod > 0 ∧ now - h.unhealthyStartTime > h.tolerationPeriod
          ∧ h.state ≠ .Ready
      then false else r2
    (r3, msg)
  | .report =>
    let r1 := h.state == .Ready
    if h.timeoutPeriod > 0 ∧ h.lastUpdateTime ≠ 0
        ∧ h.lastUpdateTime < now - h.timeoutPeriod
    then (false, "timeout") else (r1, h.message)

/-! ## Share-container region assignment
(`cpuResourceAdvisor.assignShareContainerToRegions`, src/unnamed/part_000
lines 414-496) -/

/-- The fields of a shared-cores container (and config flags) read by
`assignShareContainerToRegions`. -/
structure ShareAssignIn where
  enableShareCoresNumaBinding : Bool
  isNumaBinding : Bool
  ownerPoolName : String
  topologyAssignmentsCount : Nat
  rampUp : Bool
  cpuRequest : ℚ
  isolated : Bool
  inIsolationForceEnablePools : Bool
deriving DecidableEq

/-- Where `assignShareContainerToRegions` sends the container. -/
inductive ShareAssignOutcome
  | skipped
  | isolationRegion
  | shareRegion
deriving DecidableEq

/-- The branching of `assignShareContainerToRegions`; `none` models the
error return. -/
def assignShareContainerToRegions (ci : ShareAssignIn) : Option ShareAssignOutcome :=
  if ci.enableShareCoresNumaBinding ∧ ci.isNumaBinding then
    if ci.ownerPoolName = "" then none
    else if ci.topologyAssignmentsCount ≠ 1 then none
    else if ci.isolated ∨ ci.inIsolationForceEnablePools then some .isolationRegion
    else some .shareRegion
  else
    if ci.rampUp then some .skipped
    else if ci.ownerPoolName = "" ∧ |ci.cpuRequest| < 1000000000 then some .skipped
    else if ¬ci.rampUp ∧ ci.ownerPoolName = "" then none
    else if ci.isolated ∨ ci.inIsolationForceEnablePools then some .isolationRegion
    else some .shareRegion

/-! ## CPU advisor tick machine
(`cpuResourceAdvisor.update` / `updateWithIsolationGuardian` /
`checkIsolationSafety` / `GetHeadroom`, src/unnamed/part_000) -/

inductive QoSRegionType
  | share
  | isolation
  | dedicatedNumaExclusive
deriving DecidableEq

/-- A region as read by `checkIsolationSafety`: its type, the
`NonReclaimedCPURequirement` knob of its provision (`none` = provision
error) and the CPU limits of its member containers. -/
structure SafetyRegion where
  rtype : QoSRegionType
  nonReclaimKnob : Option ℚ
  podLimits : List ℚ
deriving DecidableEq

/-- The accumulation loop of `checkIsolationSafety` (lines 310-331): share
regions contribute their non-reclaim knob, isolation regions the CPU limits
of their containers; a share provision error aborts. -/
def sumShareIso : List SafetyRegion → Option Int
  | [] => some 0
  | r :: rest =>
    match r.rtype with
    | .share =>
      match r.nonReclaimKnob with
      | none => none
      | some q => (sumShareIso rest).map (fun s => goTrunc q + s)
    | .isolation => (sumShareIso rest).map (fun s => (r.podLimits.map goTrunc).sum + s)
    | .dedicatedNumaExclusive => sumShareIso rest

/-- `checkIsolationSafety` (lines 309-339): false on a provision error or
when the accumulated share+isolation size exceeds the capacity of the
non-binding NUMAs. -/
def checkIsolationSafety (regions : List SafetyRegion) (nonBindingSize : Int) : Bool :=
  match sumShareIso regions with
  | none => false
  | some s => decide (s ≤ nonBindingSize)

/-- One tick's environment: whether the reserve pool exists, the isolator's
pod list, whether region assignment succeeds, the regions seen by the
safety check, the non-binding NUMA capacity, and whether provision assembly
succeeds. -/
structure AdvisorEnv where
  reserveExists : Bool
  isolatedPods : List String
  assignOk : Bool
  safetyRegions : List SafetyRegion
  nonBindingSize : Int
  assembleOk : Bool
deriving DecidableEq

inductive UpdateOutcome
  | ok
  | reserveMissing
  | assignFailed
  | isolationSafetyCheckFailed
  | assembleFailed
deriving DecidableEq

structure AdvisorState where
  advisorUpdated : Bool
deriving DecidableEq

/-- `updateWithIsolationGuardian` (lines 218-285): reserve sanity check,
isolation decoration, region assignment, the isolation safety check (only
when isolation is tried and isolated pods exist), then the policy runs,
setting `advisorUpdated = true` *before* provision assembly. -/
def updateWithIsolationGuardian (tryIsolation : Bool) (env : AdvisorEnv)
    (s : AdvisorState) : AdvisorState × UpdateOutcome :=
  if !env.reserveExists then (s, .reserveMissing)
  else
    let isolationExists := tryIsolation && !env.isolatedPods.isEmpty
    if !env.assignOk then (s, .assignFailed)
    else if tryIsolation && isolationExists
        && !(checkIsolationSafety env.safetyRegions env.nonBindingSize)
    then (s, .isolationSafetyCheckFailed)
    else
      let s' : AdvisorState := ⟨true⟩
      if !env.assembleOk then (s', .assembleFailed) else (s', .ok)

/-- `cpuResourceAdvisor.update` (lines 198-214): run the tick with isolation
enabled; exactly on `errIsolationSafetyCheckFailed` re-run once with
isolation disabled.  The first component records which `tryIsolation`
values were attempted. -/
def cpuAdvisorUpdate (env : AdvisorEnv) (s : AdvisorState) :
    List Bool × AdvisorState × UpdateOutcome :=
  match updateWithIsolationGuardian true env s with
  | (s1, .isolationSafetyCheckFailed) =>
    let r := updateWithIsolationGuardian false env s1
    ([true, false], r.1, r.2)
  | (s1, r) => ([true], s1, r)

/-- `cpuResourceAdvisor.GetHeadroom` (lines 157-186): refuse while the
advisor never updated, otherwise serve the headroom assembler's result. -/
def cpuGetHeadroom (s : AdvisorState) (assemblerResult : Option ℤ) : Option ℤ :=
  if !s.advisorUpdated then none else assemblerResult

/-- The point of `updateWithIsolationGuardian` that sets `advisorUpdated`:
reached whenever the reserve pool exists and assignment succeeds (a safety
failure only delays it to the isolation-disabled re-run). -/
def reachedFlagPoint (env : AdvisorEnv) : Bool := env.reserveExists && env.assignOk

/-- One share region whose non-reclaim knob 30 exceeds the 20 cores of the
non-binding NUMAs, with one isolated pod present. -/
def safetyFailEnv : AdvisorEnv :=
  ⟨true, ["pod-1"], true, [⟨.share, some ((30 : ℤ) : ℚ), []⟩], 20, true⟩

/-- An environment whose tick passes every stage except provision assembly. -/
def envAssembleFails : AdvisorEnv := ⟨true, [], true, [], 0, false⟩

/-! ## Provision assembler
(`ProvisionAssemblerCommon`, src/unnamed/part_001; the file contains two
divergent implementations, embedded below as `assembleProvision1`
(lines 39-428) and `assembleProvision2` (lines 468-763)). -/

/-- Go `math.Round`: round half away from zero, then `int(...)`. -/
def goRound (q : ℚ) : ℤ :=
  if 0 ≤ q then ⌊q + 1/2⌋ else ⌈q - 1/2⌉

def PoolNameReclaim : String := "reclaim"

def PoolNameReserve : String := "reserve"

def FakedNUMAID : Int := -1

/-- The control-knob map a region's provision policy returns; the
`ReclaimedCPUQuota` knob may be absent. -/
structure ControlKnob where
  nonReclaimedCPURequirement : ℚ
  nonReclaimedCPURequirementUpper : ℚ
  nonReclaimedCPURequirementLower : ℚ
  reclaimedCPUQuota : Option ℚ
deriving DecidableEq

/-- A region as the assembler reads it: type, NUMA binding, owner pool,
provision knobs (`none` = `GetProvision` error), the summed pod requests,
the region/pod-level reclaim enablement and the pod count. -/
structure RegionIn where
  name : String
  rtype : QoSRegionType
  isNumaBinding : Bool
  bindingNumas : List Int
  ownerPoolName : String
  provision : Option ControlKnob
  podsRequest : ℚ
  enableReclaimPod : Bool
  podCount : Nat
deriving DecidableEq

/-- The assembler's inputs: region map (as a list), the per-NUMA reserved
reclaim and available maps, the non-binding NUMA set, the overlap and
reclaim switches, the reserve pool size and the cgroup mode. -/
structure AssemblerIn where
  regions : List RegionIn
  reservedForReclaim : List (Int × Int)
  numaAvailable : List (Int × Int)
  nonBindingNumas : List Int
  allowSharedCoresOverlapReclaimedCores : Bool
  enableReclaim : Bool
  reservePoolSize : Int
  isCgroupV2 : Bool
deriving DecidableEq

/-- Modelled from the spec (§4.G inputs): `getNUMAsResource` sums a
per-NUMA resource map over a NUMA set (absent NUMAs contribute zero); the
second implementation's in-src `getNumasReservedForReclaim` is this same
sum. -/
def getNUMAsResource (m : List (Int × Int)) (numas : List Int) : Int :=
  (numas.map (fun n => (alookup m n).getD 0)).sum

/-- `RegionMapHelper.GetRegions`: the regions of a type bound to a NUMA. -/
def regionsOn (regions : List RegionIn) (numaID : Int) (t : QoSRegionType) :
    List RegionIn :=
  regions.filter (fun r => r.rtype == t && r.bindingNumas.contains numaID)

/-- Collect `GetProvision` of every region, failing if any errors. -/
def collectProvisions : List RegionIn → Option (List (String × ControlKnob))
  | [] => some []
  | r :: rest =>
    match r.provision with
    | none => none
    | some k => (collectProvisions rest).map (fun l => (r.name, k) :: l)

def sumVals (m : List (String × Int)) : Int := (m.map (fun p => p.2)).sum

/-- Modelled from the spec §4.G (the source of `regulatePoolSizes` is not in
src/): distribute `target` proportionally over the requirements (integer
floor with the residual attached to the first pool), each pool receiving at
least 1.  The identity cases the claims exercise (`Σr = target` with all
`r ≥ 1`, and the empty map) are forced by the spec. -/
def proportionalAssign (req : List (String × Int)) (target : Int) :
    List (String × Int) :=
  let total := sumVals req
  if total ≤ 0 then req
  else
    let base := req.map (fun p => (p.1, max 1 (p.2 * target / total)))
    let diff := target - sumVals base
    match base with
    | [] => []
    | p :: rest => (p.1, p.2 + diff) :: rest

/-- Modelled from the spec §4.G: `regulatePoolSizes(requirements, ι, B,
allowExpand)` — isolation sizes pass through; the requirement pools are
scaled to consume `B - Σι` unless they already fit and expansion is
disallowed; `throttled = Σr > B - Σι`. -/
def regulatePoolSizes (requirements isolation : List (String × Int))
    (available : Int) (allowExpand : Bool) : List (String × Int) × Bool :=
  let target := available - sumVals isolation
  let reqSum := sumVals requirements
  let throttled := decide (target < reqSum)
  let sizes :=
    if reqSum ≤ target ∧ allowExpand = false then requirements
    else proportionalAssign requirements target
  (sizes ++ isolation, throttled)

/-- Modelled from the spec §4.G: the second implementation's four-argument
`regulatePoolSizes(requirements, available, enableReclaim, allowOverlap)`,
with `allowExpand = ¬enableReclaim ∨ allowOverlap` as in §4.G step 3. -/
def regulatePoolSizes2 (requirements : List (String × Int)) (available : Int)
    (enableReclaim allowOverlap : Bool) : List (String × Int) × Bool :=
  regulatePoolSizes requirements [] available (!enableReclaim || allowOverlap)

/-- Modelled from the spec §4.G: `regulateOverlapReclaimPoolSize` splits a
target overlap over the share pools proportionally (floor, residual to the
first pool, at least 1 each); fails when the target exceeds the pool sum. -/
def regulateOverlapReclaimPoolSize (sharePoolSizes : List (String × Int))
    (target : Int) : Option (List (String × Int)) :=
  let total := sumVals sharePoolSizes
  if total < target ∨ total ≤ 0 then none
  else
    let base := sharePoolSizes.map (fun p => (p.1, max 1 (p.2 * target / total)))
    let diff := target - sumVals base
    match base with
    | [] => none
    | p :: rest => some ((p.1, p.2 + diff) :: rest)

/-- `general.MergeMapInt`: the second map's entries override the first's. -/
def mergeMapInt (a b : List (String × Int)) : List (String × Int) :=
  b.foldl (fun m p => aset m p.1 p.2) a

/-- Stable insertion into a by-value ascending list. -/
def insertByValue (p : String × Int) : List (String × Int) → List (String × Int)
  | [] => [p]
  | q :: rest => if p.2 ≤ q.2 then p :: q :: rest else q :: insertByValue p rest

/-- Modelled from the spec (the source of `general.SortedByValue` is not in
src/): map entries sorted ascending by value. -/
def sortedByValue (m : List (String × Int)) : List (String × Int) :=
  m.foldr insertByValue []

/-- `types.CPUResource` of the first implementation: a size and a cfs quota
(`-1` = no quota). -/
structure CPUResource where
  size : Int
  quota : ℚ
deriving DecidableEq

/-- `InternalCPUCalculationResult` of the first implementation. -/
structure CalcResult1 where
  poolEntries : List ((String × Int) × CPUResource)
  poolOverlapInfo : List ((String × Int × String) × Int)
  allowSharedCoresOverlapReclaimedCores : Bool
deriving DecidableEq

def CalcResult1.setPoolEntry (res : CalcResult1) (pool : String) (numa : Int)
    (size : Int) (quota : ℚ) : CalcResult1 :=
  { res with poolEntries := aset res.poolEntries (pool, numa) ⟨size, quota⟩ }

def CalcResult1.getPoolEntry (res : CalcResult1) (pool : String) (numa : Int) :
    Option CPUResource :=
  alookup res.poolEntries (pool, numa)

def CalcResult1.setPoolOverlapInfo (res : CalcResult1) (pool : String) (numa : Int)
    (overlapPool : String) (size : Int) : CalcResult1 :=
  { res with poolOverlapInfo := aset res.poolOverlapInfo (pool, numa, overlapPool) size }

/-- `InternalCPUCalculationResult` of the second implementation: plain int
pool entries, no quota. -/
structure CalcResult2 where
  poolEntries : List ((String × Int) × Int)
  poolOverlapInfo : List ((String × Int × String) × Int)
  allowSharedCoresOverlapReclaimedCores : Bool
deriving DecidableEq

def CalcResult2.setPoolEntry (res : CalcResult2) (pool : String) (numa : Int)
    (size : Int) : CalcResult2 :=
  { res with poolEntries := aset res.poolEntries (pool, numa) size }

def CalcResult2.getPoolEntry (res : CalcResult2) (pool : String) (numa : Int) :
    Option Int :=
  alookup res.poolEntries (pool, numa)

def CalcResult2.setPoolOverlapInfo (res : CalcResult2) (pool : String) (numa : Int)
    (overlapPool : String) (size : Int) : CalcResult2 :=
  { res with poolOverlapInfo := aset res.poolOverlapInfo (pool, numa, overlapPool) size }

/-- `getIsolationRequirements` (part_001 lines 70-109): the isolation pool
requirements on a SNB region's NUMA, using upper knobs, downgraded to lower
knobs when the pod request plus the upper sum exceeds the (overlap-adjusted)
availability. -/
def getIsolationRequirements (pa : AssemblerIn) (r : RegionIn) :
    Option (List (String × Int)) :=
  let reservedForReclaim := getNUMAsResource pa.reservedForReclaim r.bindingNumas
  let available0 := getNUMAsResource pa.numaAvailable r.bindingNumas
  let available :=
    if pa.allowSharedCoresOverlapReclaimedCores then available0 + reservedForReclaim
    else available0
  let numaID := r.bindingNumas.headD 0
  let podsRequests := max 1 ⌈r.podsRequest⌉
  let isolationRegions := regionsOn pa.regions numaID .isolation
  match collectProvisions isolationRegions with
  | none => none
  | some knobs =>
    let isolationUpperSum :=
      (knobs.map (fun p => goTrunc p.2.nonReclaimedCPURequirementUpper)).sum
    let useLower := knobs.length > 0 ∧ podsRequests + isolationUpperSum > available
    some (knobs.map (fun p =>
      (p.1, goTrunc (if useLower then p.2.nonReclaimedCPURequirementLower
                     else p.2.nonReclaimedCPURequirementUpper))))

/-- `assembleShareNB` (part_001 lines 111-175). -/
def assembleShareNB (pa : AssemblerIn) (r : RegionIn) (result : CalcResult1) :
    Option CalcResult1 :=
  if ¬(r.rtype = .share ∧ r.isNumaBinding = true) then none
  else
    match r.provision with
    | none => none
    | some controlKnob =>
      let nodeEnableReclaim := pa.enableReclaim
      let regionNuma := r.bindingNumas.headD 0
      let reservedForReclaim := getNUMAsResource pa.reservedForReclaim r.bindingNumas
      let podsRequests := max 1 ⌈r.podsRequest⌉
      let available := getNUMAsResource pa.numaAvailable r.bindingNumas
      match getIsolationRequirements pa r with
      | none => none
      | some isolationRequirements =>
        let shareRequirements := [(r.ownerPoolName, podsRequests)]
        let allowExpand := !nodeEnableReclaim || pa.allowSharedCoresOverlapReclaimedCores
        let rp := regulatePoolSizes shareRequirements isolationRequirements
          available allowExpand
        let poolSizes := rp.1
        let result := poolSizes.foldl
          (fun res p => res.setPoolEntry p.1 regionNuma p.2 (-1)) result
        let ownerSize := (alookup poolSizes r.ownerPoolName).getD 0
        if pa.allowSharedCoresOverlapReclaimedCores then
          let reclaimedCoresAvail0 :=
            ownerSize - goTrunc controlKnob.nonReclaimedCPURequirement
          let reclaimedCoresAvail := if !nodeEnableReclaim then 0 else reclaimedCoresAvail0
          if pa.isCgroupV2 then
            let limit0 : ℚ := max (reservedForReclaim : ℚ) (reclaimedCoresAvail : ℚ)
            let limit :=
              match controlKnob.reclaimedCPUQuota with
              | some q => q
              | none => limit0
            let size := ownerSize
            let result := result.setPoolOverlapInfo PoolNameReclaim regionNuma
              r.ownerPoolName size
            some (result.setPoolEntry PoolNameReclaim regionNuma size limit)
          else
            let size := min (max reservedForReclaim reclaimedCoresAvail) ownerSize
            let result := result.setPoolOverlapInfo PoolNameReclaim regionNuma
              r.ownerPoolName size
            some (result.setPoolEntry PoolNameReclaim regionNuma size (-1))
        else
          let size0 := available - sumVals poolSizes + reservedForReclaim
          let size := if !nodeEnableReclaim then reservedForReclaim else size0
          some (result.setPoolEntry PoolNameReclaim regionNuma size (-1))

/-- `assembleIsolationNB` (part_001 lines 177-213). -/
def assembleIsolationNB (pa : AssemblerIn) (r : RegionIn) (result : CalcResult1) :
    Option CalcResult1 :=
  if ¬(r.rtype = .isolation ∧ r.isNumaBinding = true) then none
  else
    match r.provision with
    | none => none
    | some controlKnob =>
      let regionNuma := r.bindingNumas.headD 0
      if (regionsOn pa.regions regionNuma .share).length = 0 then
        let result := result.setPoolEntry r.name regionNuma
          (goTrunc controlKnob.nonReclaimedCPURequirementUpper) (-1)
        match result.getPoolEntry PoolNameReclaim regionNuma with
        | some _ => some result
        | none =>
          let available := getNUMAsResource pa.numaAvailable r.bindingNumas
          let reservedForReclaim := getNUMAsResource pa.reservedForReclaim r.bindingNumas
          match collectProvisions (regionsOn pa.regions regionNuma .isolation) with
          | none => none
          | some knobs =>
            let isolationSizes :=
              (knobs.map (fun p => goTrunc p.2.nonReclaimedCPURequirementUpper)).sum
            some (result.setPoolEntry PoolNameReclaim regionNuma
              (max (available - isolationSizes) reservedForReclaim) (-1))
      else some result

/-- `assembleDedicatedNE` (part_001 lines 215-253): with reclaim disabled the
non-reclaim requirement is the whole availability; under cgroup v2 the
reclaim entry is `(available, max(reservedForReclaim, available - nonReclaim)
⊓ quota-knob)`, otherwise `max(reservedForReclaim, available - nonReclaim)`
with no quota. -/
def assembleDedicatedNE (pa : AssemblerIn) (r : RegionIn) (result : CalcResult1) :
    Option CalcResult1 :=
  if ¬(r.rtype = .dedicatedNumaExclusive) then none
  else
    match r.provision with
    | none => none
    | some controlKnob =>
      let regionNuma := r.bindingNumas.headD 0
      let reservedForReclaim := getNUMAsResource pa.reservedForReclaim r.bindingNumas
      let available := getNUMAsResource pa.numaAvailable r.bindingNumas
      let nonReclaimRequirement0 := goTrunc controlKnob.nonReclaimedCPURequirement
      let nonReclaimRequirement :=
        if !r.enableReclaimPod then available else nonReclaimRequirement0
      if pa.isCgroupV2 then
        let limit0 : ℚ :=
          max (reservedForReclaim : ℚ) ((available - nonReclaimRequirement : ℤ) : ℚ)
        let limit :=
          match controlKnob.reclaimedCPUQuota with
          | some q => min limit0 q
          | none => limit0
        some (result.setPoolEntry PoolNameReclaim regionNuma available limit)
      else
        some (result.setPoolEntry PoolNameReclaim regionNuma
          (max reservedForReclaim (available - nonReclaimRequirement)) (-1))

/-- `assembleShare` (part_001 lines 255-362): the non-binding collective. -/
def assembleShare (pa : AssemblerIn)
    (sharePoolRequirements sharePoolRequests isolationUpperSizes
      isolationLowerSizes : List (String × Int))
    (result : CalcResult1) : Option CalcResult1 :=
  let nodeEnableReclaim := pa.enableReclaim
  let isolationUppers := sumVals isolationUpperSizes
  let available0 := getNUMAsResource pa.numaAvailable pa.nonBindingNumas
  let shareAndIsolatedPoolAvailable :=
    if !pa.allowSharedCoresOverlapReclaimedCores then
      available0 - getNUMAsResource pa.reservedForReclaim pa.nonBindingNumas
    else available0
  let allowExpand := !nodeEnableReclaim || pa.allowSharedCoresOverlapReclaimedCores
  let requirements := if allowExpand then sharePoolRequests else sharePoolRequirements
  let isolationPoolSizes :=
    if sumVals requirements + isolationUppers > shareAndIsolatedPoolAvailable
    then isolationLowerSizes else isolationUpperSizes
  let rp := regulatePoolSizes requirements isolationPoolSizes
    shareAndIsolatedPoolAvailable allowExpand
  let shareAndIsolatePoolSizes := rp.1
  let result := shareAndIsolatePoolSizes.foldl
    (fun res p => res.setPoolEntry p.1 FakedNUMAID p.2 (-1)) result
  let nonBindingNUMAsReservedForReclaim :=
    getNUMAsResource pa.reservedForReclaim pa.nonBindingNumas
  if pa.allowSharedCoresOverlapReclaimedCores then
    let isolated := sumVals (shareAndIsolatePoolSizes.filter
      (fun p => (alookup sharePoolRequirements p.1).isNone))
    let sharePoolSizes := shareAndIsolatePoolSizes.filter
      (fun p => (alookup sharePoolRequirements p.1).isSome)
    let reclaim0 := max nonBindingNUMAsReservedForReclaim
      (shareAndIsolatedPoolAvailable - isolated - sumVals sharePoolRequirements)
    let reclaim1 := if !nodeEnableReclaim then nonBindingNUMAsReservedForReclaim
      else reclaim0
    if sharePoolSizes.length > 0 then
      if !nodeEnableReclaim then
        let reclaim2 := min reclaim1 (sumVals sharePoolSizes)
        match regulateOverlapReclaimPoolSize sharePoolSizes reclaim2 with
        | none => none
        | some overlap =>
          let result := overlap.foldl
            (fun res p => res.setPoolOverlapInfo PoolNameReclaim FakedNUMAID p.1 p.2)
            result
          some (result.setPoolEntry PoolNameReclaim FakedNUMAID reclaim2 (-1))
      else
        let sharedOverlapReclaimSize := sharePoolSizes.map (fun p =>
          (p.1,
           if p.2 - (alookup sharePoolRequirements p.1).getD 0 > 0
           then p.2 - (alookup sharePoolRequirements p.1).getD 0 else 1))
        let reclaim2 := sumVals sharedOverlapReclaimSize
        if reclaim2 < nonBindingNUMAsReservedForReclaim then
          match regulateOverlapReclaimPoolSize sharePoolSizes
              nonBindingNUMAsReservedForReclaim with
          | none => none
          | some overlap =>
            let result := overlap.foldl
              (fun res p => res.setPoolOverlapInfo PoolNameReclaim FakedNUMAID p.1 p.2)
              result
            some (result.setPoolEntry PoolNameReclaim FakedNUMAID
              nonBindingNUMAsReservedForReclaim (-1))
        else
          let result := sharedOverlapReclaimSize.foldl
            (fun res p => res.setPoolOverlapInfo PoolNameReclaim FakedNUMAID p.1 p.2)
            result
          some (result.setPoolEntry PoolNameReclaim FakedNUMAID reclaim2 (-1))
    else some (result.setPoolEntry PoolNameReclaim FakedNUMAID reclaim1 (-1))
  else
    let size0 := shareAndIsolatedPoolAvailable - sumVals shareAndIsolatePoolSizes
      + nonBindingNUMAsReservedForReclaim
    let size := if !nodeEnableReclaim then nonBindingNUMAsReservedForReclaim else size0
    some (result.setPoolEntry PoolNameReclaim FakedNUMAID size (-1))

/-- Accumulator of the first implementation's region loop. -/
structure Fold1State where
  result : CalcResult1
  sharePoolRequirements : List (String × Int)
  sharePoolRequests : List (String × Int)
  isolationUpperSizes : List (String × Int)
  isolationLowerSizes : List (String × Int)
deriving DecidableEq

/-- The region walk of the first `AssembleProvision` (lines 385-421). -/
def regionFold1 (pa : AssemblerIn) : List RegionIn → Fold1State → Option Fold1State
  | [], st => some st
  | r :: rest, st =>
    match r.provision with
    | none => none
    | some controlKnob =>
      match r.rtype with
      | .share =>
        if r.isNumaBinding then
          match assembleShareNB pa r st.result with
          | none => none
          | some res => regionFold1 pa rest { st with result := res }
        else
          regionFold1 pa rest
            { st with
                sharePoolRequirements := aset st.sharePoolRequirements r.ownerPoolName
                  (max 1 (goTrunc controlKnob.nonReclaimedCPURequirement))
                sharePoolRequests := aset st.sharePoolRequests r.ownerPoolName
                  (max 1 ⌈r.podsRequest⌉) }
      | .isolation =>
        if r.isNumaBinding then
          match assembleIsolationNB pa r st.result with
          | none => none
          | some res => regionFold1 pa rest { st with result := res }
        else
          regionFold1 pa rest
            { st with
                isolationUpperSizes := aset st.isolationUpperSizes r.name
                  (goTrunc controlKnob.nonReclaimedCPURequirementUpper)
                isolationLowerSizes := aset st.isolationLowerSizes r.name
                  (goTrunc controlKnob.nonReclaimedCPURequirementLower) }
      | .dedicatedNumaExclusive =>
        match assembleDedicatedNE pa r st.result with
        | none => none
        | some res => regionFold1 pa rest { st with result := res }

/-- The first `AssembleProvision` (part_001 lines 370-428). -/
def assembleProvision1 (pa : AssemblerIn) : Option CalcResult1 :=
  let result0 : CalcResult1 :=
    { poolEntries := [], poolOverlapInfo := [],
      allowSharedCoresOverlapReclaimedCores :=
        pa.allowSharedCoresOverlapReclaimedCores }
  let result := result0.setPoolEntry PoolNameReserve FakedNUMAID pa.reservePoolSize (-1)
  match regionFold1 pa pa.regions ⟨result, [], [], [], []⟩ with
  | none => none
  | some st =>
    assembleShare pa st.sharePoolRequirements st.sharePoolRequests
      st.isolationUpperSizes st.isolationLowerSizes st.result

/-- Accumulator of the second implementation's region loop. -/
structure Fold2State where
  result : CalcResult2
  sharePoolRequirements : List (String × Int)
  shares : Int
  isolationUpperSizes : List (String × Int)
  isolationLowerSizes : List (String × Int)
  isolationUppers : Int
deriving DecidableEq

/-- The region walk of the second `AssembleProvision` (lines 522-646). -/
def regionFold2 (pa : AssemblerIn) : List RegionIn → Fold2State → Option Fold2State
  | [], st => some st
  | r :: rest, st =>
    match r.provision with
    | none => none
    | some controlKnob =>
      match r.rtype with
      | .share =>
        if r.isNumaBinding then
          let regionNuma := r.bindingNumas.headD 0
          let reservedForReclaim := getNUMAsResource pa.reservedForReclaim r.bindingNumas
          let nonReclaimRequirement := goTrunc controlKnob.nonReclaimedCPURequirement
          let available0 := getNUMAsResource pa.numaAvailable r.bindingNumas
          let available :=
            if pa.allowSharedCoresOverlapReclaimedCores then
              available0 + reservedForReclaim
            else available0
          match collectProvisions (regionsOn pa.regions regionNuma .isolation) with
          | none => none
          | some knobs =>
            let isolationUpperSum :=
              (knobs.map (fun p => goTrunc p.2.nonReclaimedCPURequirementUpper)).sum
            let useLower :=
              knobs.length > 0 ∧ nonReclaimRequirement + isolationUpperSum > available
            let poolRequirements :=
              (r.ownerPoolName, nonReclaimRequirement) ::
                knobs.map (fun p =>
                  (p.1, goTrunc (if useLower then p.2.nonReclaimedCPURequirementLower
                                 else p.2.nonReclaimedCPURequirementUpper)))
            let rp := regulatePoolSizes2 poolRequirements available
              pa.enableReclaim pa.allowSharedCoresOverlapReclaimedCores
            let poolSizes := rp.1
            let res := poolSizes.foldl
              (fun res p => res.setPoolEntry p.1 regionNuma p.2) st.result
            let ownerSize := (alookup poolSizes r.ownerPoolName).getD 0
            let reclaimedCoresSize0 := available - sumVals poolSizes + reservedForReclaim
            if pa.allowSharedCoresOverlapReclaimedCores then
              let reclaimedCoresAvail0 :=
                ownerSize - (alookup poolRequirements r.ownerPoolName).getD 0
              let reclaimedCoresAvail :=
                if !pa.enableReclaim then 0 else reclaimedCoresAvail0
              let size := min (max reservedForReclaim reclaimedCoresAvail) ownerSize
              let res := res.setPoolOverlapInfo PoolNameReclaim regionNuma
                r.ownerPoolName size
              regionFold2 pa rest
                { st with result := res.setPoolEntry PoolNameReclaim regionNuma size }
            else
              regionFold2 pa rest
                { st with
                    result := res.setPoolEntry PoolNameReclaim regionNuma
                      reclaimedCoresSize0 }
        else
          regionFold2 pa rest
            { st with
                sharePoolRequirements := aset st.sharePoolRequirements r.ownerPoolName
                  (goTrunc controlKnob.nonReclaimedCPURequirement)
                shares := st.shares + goTrunc controlKnob.nonReclaimedCPURequirement }
      | .isolation =>
        if r.isNumaBinding then
          let regionNuma := r.bindingNumas.headD 0
          if (regionsOn pa.regions regionNuma .share).length = 0 then
            regionFold2 pa rest
              { st with
                  result := st.result.setPoolEntry r.name regionNuma
                    (goTrunc controlKnob.nonReclaimedCPURequirementUpper) }
          else regionFold2 pa rest st
        else
          regionFold2 pa rest
            { st with
                isolationUpperSizes := aset st.isolationUpperSizes r.name
                  (goTrunc controlKnob.nonReclaimedCPURequirementUpper)
                isolationLowerSizes := aset st.isolationLowerSizes r.name
                  (goTrunc controlKnob.nonReclaimedCPURequirementLower)
                isolationUppers := st.isolationUppers
                  + goTrunc controlKnob.nonReclaimedCPURequirementUpper }
      | .dedicatedNumaExclusive =>
        let regionNuma := r.bindingNumas.headD 0
        let reservedForReclaim := getNUMAsResource pa.reservedForReclaim r.bindingNumas
        if r.podCount ≠ 1 then none
        else if !r.enableReclaimPod then
          if reservedForReclaim > 0 then
            regionFold2 pa rest
              { st with
                  result := st.result.setPoolEntry PoolNameReclaim regionNuma
                    reservedForReclaim }
          else regionFold2 pa rest st
        else
          let available := getNUMAsResource pa.numaAvailable r.bindingNumas
          let nonReclaimRequirement := goTrunc controlKnob.nonReclaimedCPURequirement
          regionFold2 pa rest
            { st with
                result := st.result.setPoolEntry PoolNameReclaim regionNuma
                  (available - nonReclaimRequirement + reservedForReclaim) }

/-- The second `AssembleProvision` (part_001 lines 501-715). -/
def assembleProvision2 (pa : AssemblerIn) : Option CalcResult2 :=
  let result0 : CalcResult2 :=
    { poolEntries := [], poolOverlapInfo := [],
      allowSharedCoresOverlapReclaimedCores :=
        pa.allowSharedCoresOverlapReclaimedCores }
  let result := result0.setPoolEntry PoolNameReserve FakedNUMAID pa.reservePoolSize
  match regionFold2 pa pa.regions ⟨result, [], 0, [], [], 0⟩ with
  | none => none
  | some st =>
    let available0 := getNUMAsResource pa.numaAvailable pa.nonBindingNumas
    let shareAndIsolatedPoolAvailable :=
      if pa.allowSharedCoresOverlapReclaimedCores then
        available0 + getNUMAsResource pa.reservedForReclaim pa.nonBindingNumas
      else available0
    let requirements :=
      if st.shares + st.isolationUppers > shareAndIsolatedPoolAvailable then
        mergeMapInt st.sharePoolRequirements st.isolationLowerSizes
      else mergeMapInt st.sharePoolRequirements st.isolationUpperSizes
    let rp := regulatePoolSizes2 requirements shareAndIsolatedPoolAvailable
      pa.enableReclaim pa.allowSharedCoresOverlapReclaimedCores
    let shareAndIsolatePoolSizes := rp.1
    let result := shareAndIsolatePoolSizes.foldl
      (fun res p => res.setPoolEntry p.1 FakedNUMAID p.2) st.result
    let nbReserved := getNUMAsResource pa.reservedForReclaim pa.nonBindingNumas
    let reclaim0 := shareAndIsolatedPoolAvailable - sumVals shareAndIsolatePoolSizes
      + nbReserved
    if pa.allowSharedCoresOverlapReclaimedCores then
      let sharePoolSizes := st.sharePoolRequirements.map
        (fun p => (p.1, (alookup shareAndIsolatePoolSizes p.1).getD 0))
      let isolated := shareAndIsolatedPoolAvailable - sumVals sharePoolSizes
      let sharePoolSum := sumVals sharePoolSizes
      let reclaim1 := max nbReserved
        (shareAndIsolatedPoolAvailable - isolated - sumVals st.sharePoolRequirements)
      let reclaim2 := if !pa.enableReclaim then nbReserved else reclaim1
      if sharePoolSizes.length > 0 then
        let reclaim3 := min reclaim2 (sumVals sharePoolSizes)
        let ps := sortedByValue sharePoolSizes
        let overlapMap := ps.foldl (fun m p =>
          let size := goRound (((reclaim3 * p.2 : ℤ) : ℚ) / ((sharePoolSum : ℤ) : ℚ))
          if size > 0 then aset m p.1 size else m) []
        let diff := reclaim3 - sumVals overlapMap
        let overlapMap :=
          if diff > 0 then
            match ps with
            | [] => overlapMap
            | p :: _ => aset overlapMap p.1 ((alookup overlapMap p.1).getD 0 + diff)
          else if diff < 0 then
            match ps.getLast? with
            | none => overlapMap
            | some p => aset overlapMap p.1 ((alookup overlapMap p.1).getD 0 - diff)
          else overlapMap
        let result := overlapMap.foldl
          (fun res p => res.setPoolOverlapInfo PoolNameReclaim FakedNUMAID p.1 p.2)
          result
        some (result.setPoolEntry PoolNameReclaim FakedNUMAID reclaim3)
      else
        some (result.setPoolEntry PoolNameReclaim FakedNUMAID reclaim2)
    else
      some (result.setPoolEntry PoolNameReclaim FakedNUMAID reclaim0)

/-- The claim's non-reclaim requirement for a DedicatedNumaExclusive
region: the `NonReclaimedCPURequirement` knob, or the NUMA's availability
when reclaim is disabled. -/
def dneNonReclaim (pa : AssemblerIn) (r : RegionIn) (knob : ControlKnob) : Int :=
  if r.enableReclaimPod then goTrunc knob.nonReclaimedCPURequirement
  else getNUMAsResource pa.numaAvailable r.bindingNumas

/-- The claim's cgroup-v2 reclaim quota:
`max(reservedForReclaim, available - nonReclaim)`, capped by the
`ReclaimedCPUQuota` knob when present. -/
def dneQuotaClaim (pa : AssemblerIn) (r : RegionIn) (knob : ControlKnob) : ℚ :=
  let base : ℚ :=
    max ((getNUMAsResource pa.reservedForReclaim r.bindingNumas : ℤ) : ℚ)
      (((getNUMAsResource pa.numaAvailable r.bindingNumas
          - dneNonReclaim pa r knob : ℤ)) : ℚ)
  match knob.reclaimedCPUQuota with
  | some q => min base q
  | none => base

/-- The spec's scenario 3 knob: `NonReclaimedCPURequirement = 20`, no
reclaimed-quota knob. -/
def dneKnob : ControlKnob := ⟨((20 : ℤ) : ℚ), 0, 0, none⟩

def dneRegion : RegionIn :=
  ⟨"dedicated-0", .dedicatedNumaExclusive, true, [0], "dedicated",
    some dneKnob, 0, true, 1⟩

/-- Scenario 3: NUMA of size 32, reserve 0, reservedForReclaim 6, cgroup v2. -/
def dneIn : AssemblerIn := ⟨[dneRegion], [(0, 6)], [(0, 32)], [], true, true, 0, true⟩

def emptyRes1 : CalcResult1 := ⟨[], [], false⟩

/-- No regions at all: 10 available cores and 2 reserved-for-reclaim on the
single non-binding NUMA, shared/reclaim overlap allowed, reclaim enabled. -/
def c6NoRegions : AssemblerIn :=
  { regions := []
    reservedForReclaim := [(0, 2)]
    numaAvailable := [(0, 10)]
    nonBindingNumas := [0]
    allowSharedCoresOverlapReclaimedCores := true
    enableReclaim := true
    reservePoolSize := 3
    isCgroupV2 := false }

/-- Two non-binding share pools with knob = request (6 and 3) exactly
filling the 9 available cores, no reserved-for-reclaim, overlap allowed. -/
def c6TwoSharePools : AssemblerIn :=
  { regions :=
      [⟨"share-a", .share, false, [], "share-a",
          some ⟨((6 : ℤ) : ℚ), 0, 0, none⟩, ((6 : ℤ) : ℚ), true, 1⟩,
       ⟨"share-b", .share, false, [], "share-b",
          some ⟨((3 : ℤ) : ℚ), 0, 0, none⟩, ((3 : ℤ) : ℚ), true, 1⟩]
    reservedForReclaim := [(0, 0)]
    numaAvailable := [(0, 9)]
    nonBindingNumas := [0]
    allowSharedCoresOverlapReclaimedCores := true
    enableReclaim := true
    reservePoolSize := 0
    isCgroupV2 := false }

theorem alookup_aset_self [BEq κ] [LawfulBEq κ] (m : List (κ × α)) (k : κ) (v : α) :
    alookup (aset m k v) k = some v := by
  induction m with
  | nil => simp [alookup, aset]
  | cons p rest ih =>
    by_cases h : p.1 = k
    · simp [alookup, aset, h]
    · have hb : (p.1 == k) = false := beq_false_of_ne h
      simp only [aset, hb, if_false]
      simpa [alookup, hb] using ih

theorem alookup_aset_ne [BEq κ] [LawfulBEq κ] (m : List (κ × α)) (k k' : κ) (v : α)
    (h : k ≠ k') : alookup (aset m k v) k' = alookup m k' := by
  induction m with
  | nil => simp [alookup, aset, beq_false_of_ne h]
  | cons p rest ih =>
    by_cases hp : p.1 = k
    · subst hp
      simp [alookup, aset, beq_false_of_ne h]
    · have hb : (p.1 == k) = false := beq_false_of_ne hp
      simp only [aset, hb, if_false]
      by_cases hp' : p.1 = k'
      · simp [alookup, hp']
      · have hb' : (p.1 == k') = false := beq_false_of_ne hp'
        simpa [alookup, hb'] using ih

theorem alookup_aadd_self [BEq κ] [LawfulBEq κ] (m : List (κ × ℚ)) (k : κ) (v : ℚ) :
    alookup (aadd m k v) k = some ((alookup m k).getD 0 + v) :=
  alookup_aset_self ..

theorem alookup_aadd_ne [BEq κ] [LawfulBEq κ] (m : List (κ × ℚ)) (k k' : κ) (v : ℚ)
    (h : k ≠ k') : alookup (aadd m k v) k' = alookup m k' :=
  alookup_aset_ne _ _ _ _ h

theorem numaLoop_eq (I : MemInputs) (l : List Int)
    (hm : ∀ k ∈ l, (alookup I.numaMetrics k).isSome = true) :
    ∀ a b c m, numaLoop I (a, b, c, m) l =
      some (a + (l.map (baseReclaim I)).sum,
            b + (l.map (fun k => (mdat I k).total)).sum,
            c + (l.length : ℚ) * (I.reservedForAllocate / (I.numNUMANodes : ℚ)),
            l.foldl (fun m n => aset m n (baseReclaim I n)) m) := by
  induction l with
  | nil => intro a b c m; simp [numaLoop]
  | cons n rest ih =>
    intro a b c m
    obtain ⟨d, hd⟩ := Option.isSome_iff_exists.mp (hm n (List.mem_cons_self n rest))
    have hmd : mdat I n = d := by simp [mdat, hd]
    rw [numaLoop, hd]
    dsimp only
    rw [ih (fun k hk => hm k (List.mem_cons_of_mem _ hk))]
    simp only [List.map_cons, List.sum_cons, List.length_cons, List.foldl_cons,
      Option.some.injEq, Prod.mk.injEq, baseReclaim, hmd]
    refine ⟨by ring, by ring, by push_cast; ring, trivial⟩

theorem alookup_foldl_aset_not_mem (f : Int → ℚ) (l : List Int) (k : Int)
    (hk : k ∉ l) : ∀ m, alookup (l.foldl (fun m n => aset m n (f n)) m) k = alookup m k := by
  induction l with
  | nil => intro m; rfl
  | cons n rest ih =>
    intro m
    have hne : n ≠ k := fun h => hk (h ▸ List.mem_cons_self n rest)
    rw [List.foldl_cons, ih (fun h => hk (List.mem_cons_of_mem _ h)),
      alookup_aset_ne _ _ _ _ hne]

theorem alookup_foldl_aset_mem (f : Int → ℚ) (l : List Int) (k : Int)
    (hk : k ∈ l) (hnd : l.Nodup) :
    ∀ m, alookup (l.foldl (fun m n => aset m n (f n)) m) k = some (f k) := by
  induction l with
  | nil => cases hk
  | cons n rest ih =>
    intro m
    rcases List.mem_cons.mp hk with h | h
    · subst h
      rw [List.foldl_cons,
        alookup_foldl_aset_not_mem _ _ _ (List.Nodup.not_mem hnd),
        alookup_aset_self]
    · exact ih h (List.Nodup.of_cons hnd) _

theorem alookup_foldl_aadd_not_mem (p : ℚ) (l : List Int) (k : Int)
    (hk : k ∉ l) : ∀ m, alookup (l.foldl (fun mm n => aadd mm n p) m) k = alookup m k := by
  induction l with
  | nil => intro m; rfl
  | cons n rest ih =>
    intro m
    have hne : n ≠ k := fun h => hk (h ▸ List.mem_cons_self n rest)
    rw [List.foldl_cons, ih (fun h => hk (List.mem_cons_of_mem _ h)),
      alookup_aadd_ne _ _ _ _ hne]

theorem alookup_foldl_aadd_mem (p : ℚ) (l : List Int) (k : Int)
    (hk : k ∈ l) (hnd : l.Nodup) :
    ∀ m, alookup (l.foldl (fun mm n => aadd mm n p) m) k
      = some ((alookup m k).getD 0 + p) := by
  induction l with
  | nil => cases hk
  | cons n rest ih =>
    intro m
    rcases List.mem_cons.mp hk with h | h
    · subst h
      rw [List.foldl_cons,
        alookup_foldl_aadd_not_mem _ _ _ (List.Nodup.not_mem hnd),
        alookup_aadd_self]
    · rw [List.foldl_cons, ih h (List.Nodup.of_cons hnd)]
      have hne : n ≠ k := by
        rintro rfl
        exact (List.Nodup.not_mem hnd) h
      rw [alookup_aadd_ne _ _ _ _ hne]

theorem containerShare_cons (c : MemContainer) (rest : List MemContainer) (k : Int) :
    containerShare (c :: rest) k =
      (if 0 < c.memoryRequest ∧ 0 < c.numaAssignments.length ∧ k ∈ c.numaAssignments
       then c.memoryRequest / (c.numaAssignments.length : ℚ) else 0)
      + containerShare rest k := by
  simp [containerShare]

theorem containerLoop_fst (cs : List MemContainer) :
    ∀ r m, (containerLoop (r, m) cs).1
      = r + (cs.map (fun c => c.memoryRequest)).sum := by
  induction cs with
  | nil => intro r m; simp [containerLoop]
  | cons c rest ih =>
    intro r m
    rw [containerLoop]
    simp only [List.map_cons, List.sum_cons]
    rw [ih]
    ring

theorem containerLoop_lookup (cs : List MemContainer) (k : Int)
    (hnd : ∀ c ∈ cs, c.numaAssignments.Nodup) :
    ∀ r m v, alookup m k = some v →
      alookup (containerLoop (r, m) cs).2 k = some (v + containerShare cs k) := by
  induction cs with
  | nil => intro r m v hv; simpa [containerLoop, containerShare] using hv
  | cons c rest ih =>
    intro r m v hv
    have hnd' : ∀ c ∈ rest, c.numaAssignments.Nodup :=
      fun c hc => hnd c (List.mem_cons_of_mem _ hc)
    rw [containerLoop, containerShare_cons]
    by_cases hc : 0 < c.memoryRequest ∧ 0 < c.numaAssignments.length
    · rw [if_pos hc]
      by_cases hkc : k ∈ c.numaAssignments
      · have h1 := alookup_foldl_aadd_mem
          (c.memoryRequest / (c.numaAssignments.length : ℚ)) _ _ hkc
          (hnd c (List.mem_cons_self c rest)) m
        rw [hv, Option.getD_some] at h1
        rw [ih hnd' (r + c.memoryRequest) _ _ h1, if_pos ⟨hc.1, hc.2, hkc⟩]
        congr 1
        ring
      · have h1 := alookup_foldl_aadd_not_mem
          (c.memoryRequest / (c.numaAssignments.length : ℚ)) _ _ hkc m
        rw [hv] at h1
        rw [ih hnd' (r + c.memoryRequest) _ _ h1,
          if_neg (fun h => hkc h.2.2), zero_add]
    · rw [if_neg hc,
        ih hnd' (r + c.memoryRequest) _ _ hv,
        if_neg (fun h => hc ⟨h.1, h.2.1⟩), zero_add]

theorem containerLoop_lookup_none (cs : List MemContainer) (k : Int)
    (hk : ∀ c ∈ cs, k ∉ c.numaAssignments) :
    ∀ r m, alookup m k = none →
      alookup (containerLoop (r, m) cs).2 k = none := by
  induction cs with
  | nil => intro r m hv; simpa [containerLoop] using hv
  | cons c rest ih =>
    intro r m hv
    rw [containerLoop]
    have ih' := ih (fun c hc => hk c (List.mem_cons_of_mem _ hc))
    by_cases hc : 0 < c.memoryRequest ∧ 0 < c.numaAssignments.length
    · rw [if_pos hc]
      refine ih' _ _ ?_
      rw [alookup_foldl_aadd_not_mem _ _ _ (hk c (List.mem_cons_self c rest)), hv]
    · rw [if_neg hc]
      exact ih' _ _ hv

theorem alookup_map_value (g : α → β) (m : List (Int × α)) (k : Int) :
    alookup (m.map (fun p => (p.1, g p.2))) k = (alookup m k).map g := by
  induction m with
  | nil => rfl
  | cons p rest ih =>
    by_cases h : p.1 = k
    · simp [alookup, List.find?, h]
    · have hb : (p.1 == k) = false := beq_false_of_ne h
      simp only [List.map_cons, alookup, List.find?, hb] at *
      exact ih

theorem alookup_padFold_some (l : List Int) (k : Int) (v : ℤ) :
    ∀ nh, alookup nh k = some v → alookup (padFold nh l) k = some v := by
  induction l with
  | nil => intro nh hv; exact hv
  | cons n rest ih =>
    intro nh hv
    rw [padFold, List.foldl_cons]
    by_cases h : n = k
    · subst h
      rw [hv]
      exact ih nh hv
    · cases hl : alookup nh n with
      | some w => exact ih nh hv
      | none =>
        refine ih _ ?_
        rw [alookup_aset_ne _ _ _ _ h, hv]

theorem alookup_padFold_mem (l : List Int) (k : Int) (hk : k ∈ l) :
    ∀ nh, alookup nh k = none → alookup (padFold nh l) k = some 0 := by
  induction l with
  | nil => cases hk
  | cons n rest ih =>
    intro nh hv
    rw [padFold, List.foldl_cons]
    by_cases h : n = k
    · subst h
      rw [hv]
      exact alookup_padFold_some rest _ _ _ (alookup_aset_self nh n 0)
    · have hk' : k ∈ rest := by
        rcases List.mem_cons.mp hk with h' | h'
        · exact absurd h'.symm h
        · exact h'
      cases hl : alookup nh n with
      | some w => exact ih hk' nh hv
      | none =>
        refine ih hk' _ ?_
        rw [alookup_aset_ne _ _ _ _ h, hv]

theorem memUpdate_success (I : MemInputs)
    (hm : ∀ k ∈ I.availNUMAs, (alookup I.numaMetrics k).isSome = true)
    (hsf : I.scaleFactor.isSome = true) :
    memUpdate I = some (memResultSpec I) := by
  obtain ⟨sf, hsfv⟩ := Option.isSome_iff_exists.mp hsf
  rw [memUpdate, numaLoop_eq I _ hm, hsfv]
  have hfst := containerLoop_fst I.reclaimedContainers
    ((I.availNUMAs.map (baseReclaim I)).sum) (m0spec I)
  have hR : (containerLoop ((I.availNUMAs.map (baseReclaim I)).sum, m0spec I)
      I.reclaimedContainers).1 = Rspec I := by rw [hfst, Rspec]
  simp only [zero_add, m0spec]
  rw [show ((I.availNUMAs.foldl (fun m n => aset m n (baseReclaim I n)) []) : List (Int × ℚ))
    = m0spec I from rfl]
  rw [hR]
  have hW : (I.availNUMAs.map (fun k => (mdat I k).total)).sum * sf / 10000 = Wspec I := by
    rw [Wspec, hsfv]; rfl
  have hA : (I.availNUMAs.length : ℚ) * (I.reservedForAllocate / (I.numNUMANodes : ℚ))
      = Aspec I := rfl
  rw [hW, hA]
  simp only [memResultSpec, headroomSpec, scaleSpec, scaledSpec, m1spec]

theorem alookup_scaledSpec (I : MemInputs) (k : Int) :
    alookup (scaledSpec I) k = (alookup (m1spec I) k).map (fun x => x * scaleSpec I) := by
  simp only [scaledSpec]
  exact alookup_map_value (fun x => x * scaleSpec I) (m1spec I) k

theorem alookup_m0spec_mem (I : MemInputs) (k : Int) (hk : k ∈ I.availNUMAs)
    (hnd : I.availNUMAs.Nodup) : alookup (m0spec I) k = some (baseReclaim I k) :=
  alookup_foldl_aset_mem _ _ _ hk hnd []

theorem alookup_m0spec_not_mem (I : MemInputs) (k : Int) (hk : k ∉ I.availNUMAs) :
    alookup (m0spec I) k = none :=
  alookup_foldl_aset_not_mem _ _ _ hk []

/-- C2: on every successful Update of the memory NUMAAware headroom policy,
the total headroom equals `max 0 (R - W - A)` with `R` the per-NUMA
reclaimable sums plus reclaimed-container requests, `W` the watermark
reserve and `A` the reserved-for-allocate share; every available NUMA's
entry is its reclaimable amount scaled by `headroom/R`, and a NUMA without
data reports headroom `0`. -/
theorem memUpdate_headroom_formula (I : MemInputs) (n m : Int)
    (hm : ∀ k ∈ I.availNUMAs, (alookup I.numaMetrics k).isSome = true)
    (hsf : I.scaleFactor.isSome = true)
    (hnd : I.availNUMAs.Nodup)
    (hcnd : ∀ c ∈ I.reclaimedContainers, c.numaAssignments.Nodup)
    (hn : n ∈ I.availNUMAs)
    (hm1 : m ∉ I.availNUMAs)
    (hm2 : ∀ c ∈ I.reclaimedContainers, m ∉ c.numaAssignments)
    (hm3 : m ∈ I.allNUMAs) :
    memUpdate I = some (memResultSpec I)
    ∧ (memResultSpec I).memoryHeadroom = max (Rspec I - Wspec I - Aspec I) 0
    ∧ alookup (memResultSpec I).numaRecScaled n = some (reclSpec I n * scaleSpec I)
    ∧ alookup (memResultSpec I).numaHeadroom m = some 0 := by
  refine ⟨memUpdate_success I hm hsf, rfl, ?_, ?_⟩
  · have h0 := alookup_m0spec_mem I n hn hnd
    have h1 := containerLoop_lookup I.reclaimedContainers n hcnd
      ((I.availNUMAs.map (baseReclaim I)).sum) (m0spec I) _ h0
    have h2 : alookup (m1spec I) n = some (reclSpec I n) := h1
    rw [memResultSpec]
    rw [alookup_scaledSpec, h2]
    rfl
  · have h0 := alookup_m0spec_not_mem I m hm1
    have h1 := containerLoop_lookup_none I.reclaimedContainers m hm2
      ((I.availNUMAs.map (baseReclaim I)).sum) (m0spec I) h0
    have h2 : alookup (m1spec I) m = none := h1
    have h3 : alookup (scaledSpec I) m = none := by
      rw [alookup_scaledSpec, h2]
      rfl
    have h4 : alookup ((scaledSpec I).map (fun p => (p.1, goTrunc p.2))) m = none := by
      rw [alookup_map_value goTrunc (scaledSpec I) m, h3]
      rfl
    exact alookup_padFold_mem _ _ hm3 _ h4

theorem memUpdate_headroom_formula_witness :
    memUpdate sc5 = some (memResultSpec sc5)
    ∧ (memResultSpec sc5).memoryHeadroom = 15360000000
    ∧ alookup (memResultSpec sc5).numaRecScaled 0 = some 7680000000
    ∧ alookup (memResultSpec sc5).numaHeadroom 2 = some 0 := by
  obtain ⟨h1, h2, h3, h4⟩ := memUpdate_headroom_formula sc5 0 2
    (by decide) (by decide) (by decide) (by decide) (by decide) (by decide)
    (by decide) (by decide)
  refine ⟨h1, ?_, ?_, h4⟩
  · rw [h2]
    simp [Rspec, Wspec, Aspec, sc5, baseReclaim, mdat, alookup]
    norm_num
  · rw [h3]
    simp [reclSpec, scaleSpec, headroomSpec, Rspec, Wspec, Aspec, sc5,
      baseReclaim, mdat, alookup, containerShare]
    norm_num

/-- C5: the policy's update status is `PolicyUpdateFailed` exactly when the
last Update failed; `GetHeadroom` then errors (including in the initial
state), and after a successful Update it serves the computed headroom. -/
theorem policyGetHeadroom_tracks_last_update (s0 : PolicyState)
    (hist : List MemInputs) (I : MemInputs) :
    policyGetHeadroom (List.foldl policyUpdateStep s0 (hist ++ [I]))
      = (memUpdate I).map (fun r => (goTrunc r.memoryHeadroom, r.numaHeadroom))
    ∧ (List.foldl policyUpdateStep s0 (hist ++ [I])).updateStatus
      = (memUpdate I).isSome
    ∧ policyGetHeadroom initialPolicy = none := by
  rw [List.foldl_append]
  simp only [List.foldl_cons, List.foldl_nil]
  cases h : memUpdate I <;>
    simp [policyUpdateStep, policyGetHeadroom, h, initialPolicy]

theorem doubleInactive_numaMetrics (I : MemInputs) :
    (doubleInactive I).numaMetrics = I.numaMetrics.map
      (fun p => (p.1, ⟨p.2.free, 2 * p.2.inactiveFile, p.2.total⟩)) := rfl

theorem mdat_doubleInactive (I : MemInputs) (k : Int) :
    mdat (doubleInactive I) k
      = ⟨(mdat I k).free, 2 * (mdat I k).inactiveFile, (mdat I k).total⟩ := by
  have h : alookup (doubleInactive I).numaMetrics k
      = (alookup I.numaMetrics k).map
        (fun d => ⟨d.free, 2 * d.inactiveFile, d.total⟩) := by
    rw [doubleInactive_numaMetrics]
    exact alookup_map_value
      (fun d : NumaMem => (⟨d.free, 2 * d.inactiveFile, d.total⟩ : NumaMem))
      I.numaMetrics k
  simp only [mdat, h]
  cases alookup I.numaMetrics k with
  | none => simp
  | some d => simp

theorem sum_map_le_sum_map (l : List Int) (f g : Int → ℚ)
    (h : ∀ k ∈ l, f k ≤ g k) : (l.map f).sum ≤ (l.map g).sum := by
  induction l with
  | nil => simp
  | cons n rest ih =>
    simp only [List.map_cons, List.sum_cons]
    exact add_le_add (h n (List.mem_cons_self n rest))
      (ih (fun k hk => h k (List.mem_cons_of_mem _ hk)))

/-- C7: doubling every NUMA's `inactiveFile` metric (all other inputs
unchanged, cache ratio in `[0,1]`) never decreases the total reported
headroom. -/
theorem memUpdate_double_inactive_mono (I : MemInputs)
    (hm : ∀ k ∈ I.availNUMAs, (alookup I.numaMetrics k).isSome = true)
    (hsf : I.scaleFactor.isSome = true)
    (hr0 : 0 ≤ I.cacheBasedRatio) (hr1 : I.cacheBasedRatio ≤ 1)
    (hin : ∀ k ∈ I.availNUMAs, 0 ≤ (mdat I k).inactiveFile) :
    memUpdate I = some (memResultSpec I)
    ∧ memUpdate (doubleInactive I) = some (memResultSpec (doubleInactive I))
    ∧ (memResultSpec I).memoryHeadroom
      ≤ (memResultSpec (doubleInactive I)).memoryHeadroom := by
  have hm' : ∀ k ∈ (doubleInactive I).availNUMAs,
      (alookup (doubleInactive I).numaMetrics k).isSome = true := by
    intro k hk
    have h : alookup (doubleInactive I).numaMetrics k
        = (alookup I.numaMetrics k).map
          (fun d => ⟨d.free, 2 * d.inactiveFile, d.total⟩) := by
      rw [doubleInactive_numaMetrics]
      exact alookup_map_value
        (fun d : NumaMem => (⟨d.free, 2 * d.inactiveFile, d.total⟩ : NumaMem))
        I.numaMetrics k
    rw [h]
    have hs := hm k hk
    cases halook : alookup I.numaMetrics k with
    | none => rw [halook] at hs; simp at hs
    | some d => rfl
  refine ⟨memUpdate_success I hm hsf,
    memUpdate_success (doubleInactive I) hm' hsf, ?_⟩
  have hR : Rspec I ≤ Rspec (doubleInactive I) := by
    rw [Rspec, Rspec]
    refine add_le_add ?_ le_rfl
    refine sum_map_le_sum_map _ _ _ (fun k hk => ?_)
    rw [baseReclaim, baseReclaim, mdat_doubleInactive]
    have hcr : (doubleInactive I).cacheBasedRatio = I.cacheBasedRatio := rfl
    rw [hcr]
    dsimp only
    nlinarith [mul_nonneg (hin k hk) hr0]
  have hW : Wspec (doubleInactive I) = Wspec I := by
    have ht : ∀ k : Int, (mdat (doubleInactive I) k).total = (mdat I k).total := by
      intro k
      rw [mdat_doubleInactive]
    simp only [Wspec, ht]
    rfl
  have hA : Aspec (doubleInactive I) = Aspec I := rfl
  show headroomSpec I ≤ headroomSpec (doubleInactive I)
  rw [headroomSpec, headroomSpec, hW, hA]
  exact max_le_max (by linarith) le_rfl

theorem memUpdate_double_inactive_mono_witness :
    memUpdate sc5 = some (memResultSpec sc5)
    ∧ memUpdate (doubleInactive sc5) = some (memResultSpec (doubleInactive sc5))
    ∧ (memResultSpec sc5).memoryHeadroom
      ≤ (memResultSpec (doubleInactive sc5)).memoryHeadroom :=
  memUpdate_double_inactive_mono sc5 (by decide) (by decide)
    (by norm_num [sc5]) (by norm_num [sc5])
    (by
      intro k hk
      have hk01 : k = 0 ∨ k = 1 := by simpa [sc5] using hk
      rcases hk01 with rfl | rfl <;> norm_num [mdat, sc5, alookup])

theorem decInt_enc (i : ℤ) (r : List ℕ) : decInt (encInt i ++ r) = some (i, r) := by
  by_cases h : 0 ≤ i
  · simp only [encInt, if_pos h, List.cons_append, List.nil_append, decInt]
    rw [Int.toNat_of_nonneg h]
  · simp only [encInt, if_neg h, List.cons_append, List.nil_append, decInt]
    push_neg at h
    rw [Int.toNat_of_nonneg (by linarith), neg_neg]

theorem decChars_enc (cs : List Char) (r : List ℕ) :
    decChars cs.length (cs.map Char.toNat ++ r) = some (cs, r) := by
  induction cs with
  | nil => rfl
  | cons c rest ih =>
    have h1 : (c :: rest).map Char.toNat ++ r = c.toNat :: (rest.map Char.toNat ++ r) := rfl
    rw [List.length_cons, h1]
    simp only [decChars]
    rw [ih]
    simp [Char.ofNat_toNat]

theorem decStr_enc (s : String) (r : List ℕ) :
    decStr (encString s ++ r) = some (s, r) := by
  have hl : s.length = s.data.length := rfl
  simp only [encString, List.cons_append, decStr, decNat, hl, decChars_enc]
  rfl

theorem decPair_enc (e1 : α → List ℕ) (e2 : β → List ℕ)
    (d1 : List ℕ → Option (α × List ℕ)) (d2 : List ℕ → Option (β × List ℕ))
    (h1 : ∀ a r, d1 (e1 a ++ r) = some (a, r))
    (h2 : ∀ b r, d2 (e2 b ++ r) = some (b, r)) (p : α × β) (r : List ℕ) :
    decPair d1 d2 (encPair e1 e2 p ++ r) = some (p, r) := by
  simp only [encPair, List.append_assoc, decPair]
  rw [h1]
  dsimp only
  rw [h2]

theorem decCount_enc (e : α → List ℕ) (d : List ℕ → Option (α × List ℕ))
    (h : ∀ a r, d (e a ++ r) = some (a, r)) (xs : List α) (r : List ℕ) :
    decCount d xs.length ((xs.map e).flatten ++ r) = some (xs, r) := by
  induction xs with
  | nil => rfl
  | cons x rest ih =>
    simp only [List.length_cons, List.map_cons, List.flatten_cons, List.append_assoc,
      decCount, h, ih]
    rfl

theorem decListOf_enc (e : α → List ℕ) (d : List ℕ → Option (α × List ℕ))
    (h : ∀ a r, d (e a ++ r) = some (a, r)) (xs : List α) (r : List ℕ) :
    decListOf d (encListOf e xs ++ r) = some (xs, r) := by
  rw [encListOf, decListOf]
  simp only [List.cons_append, decNat]
  exact decCount_enc e d h xs r

theorem decNat_enc (n : ℕ) (r : List ℕ) : decNat (encNat n ++ r) = some (n, r) := rfl

theorem decCheckpoint_enc (cp : MemoryPluginCheckpoint) (r : List ℕ) :
    decCheckpoint (encCheckpoint cp ++ r) = some (cp, r) := by
  rw [decCheckpoint, encCheckpoint]
  simp only [List.append_assoc]
  rw [decStr_enc]
  dsimp only
  rw [decListOf_enc _ _ (decPair_enc _ _ _ _ decInt_enc decNat_enc)]
  dsimp only
  rw [decListOf_enc _ _ (decPair_enc _ _ _ _ decInt_enc decInt_enc)]
  dsimp only
  rw [decListOf_enc _ _ (decPair_enc _ _ _ _ decStr_enc decNat_enc)]
  dsimp only
  rw [decListOf_enc _ _ (decPair_enc _ _ _ _ decInt_enc decStr_enc)]
  dsimp only
  rw [decNat_enc]

/-- C8: marshal, then unmarshal into a fresh checkpoint, then marshal again
yields byte-for-byte identical output; the stored checksum is the hash of
the document with the checksum field zeroed, so `VerifyChecksum` succeeds
on the round-tripped checkpoint. -/
theorem checkpoint_marshal_roundtrip (cp : MemoryPluginCheckpoint) :
    unmarshalCheckpoint (marshalCheckpoint cp)
      = some (withChecksum cp (hash32 (encCheckpoint (zeroChecksum cp))))
    ∧ marshalCheckpoint
        (withChecksum cp (hash32 (encCheckpoint (zeroChecksum cp))))
      = marshalCheckpoint cp
    ∧ (withChecksum cp (hash32 (encCheckpoint (zeroChecksum cp)))).checksum
      = hash32 (encCheckpoint (zeroChecksum cp))
    ∧ verifyChecksum (withChecksum cp (hash32 (encCheckpoint (zeroChecksum cp))))
      = true := by
  refine ⟨?_, rfl, rfl, ?_⟩
  · rw [marshalCheckpoint, unmarshalCheckpoint]
    have h := decCheckpoint_enc
      (withChecksum cp (hash32 (encCheckpoint (zeroChecksum cp)))) []
    rw [List.append_nil] at h
    rw [h]
  · simp [verifyChecksum, withChecksum, zeroChecksum]

theorem goTrunc_intCast (z : ℤ) : goTrunc (z : ℚ) = z := by
  rw [goTrunc]
  split
  · exact Int.floor_intCast z
  · exact Int.ceil_intCast z

/-- C9 (code bug): after the caller's last report-mode update was a failure
at time 5 with timeoutPeriod 10, any later query past the auto-recover
deadline still reports not-Ready with a timeout message — the registry never
auto-recovers, contradicting the documented report-mode semantics. -/
theorem report_mode_does_not_auto_recover (now : Int) (h : 15 < now) :
    readinessResult now
      (healthzUpdate (registerReportCheck 10 .Ready) .NotReady "probe failed" 5)
      = (false, "timeout") := by
  have hc : (10 : Int) > 0 ∧ (5 : Int) ≠ 0 ∧ (5 : Int) < now - 10 :=
    ⟨by norm_num, by norm_num, by omega⟩
  simp only [healthzUpdate, registerReportCheck, readinessResult]
  norm_num
  omega

theorem report_mode_does_not_auto_recover_witness :
    (15 : Int) < 100
    ∧ readinessResult 100
        (healthzUpdate (registerReportCheck 10 .Ready) .NotReady "probe failed" 5)
        = (false, "timeout") :=
  ⟨by norm_num, report_mode_does_not_auto_recover 100 (by norm_num)⟩

/-- C4 (code bug): a shared-cores, non-NUMA-binding container in ramp-up is
skipped; but a container past ramp-up with an empty owner pool is *also*
silently skipped whenever its CPU request is below `1e9` (the
`math.Abs(ci.CPURequest) < 1e9` guard), so the documented error return is
unreachable for any realistic request. -/
theorem assignShare_empty_owner_post_rampup_skipped :
    assignShareContainerToRegions ⟨false, false, "", 0, true, 4, false, false⟩
      = some .skipped
    ∧ assignShareContainerToRegions ⟨false, false, "", 0, false, 4, false, false⟩
      = some .skipped
    ∧ ∀ q : ℚ, |q| < 1000000000 →
        assignShareContainerToRegions ⟨false, false, "", 0, false, q, false, false⟩
          = some .skipped := by
  refine ⟨by norm_num [assignShareContainerToRegions],
    by norm_num [assignShareContainerToRegions], ?_⟩
  intro q hq
  simp [assignShareContainerToRegions, hq]

theorem assignShare_empty_owner_post_rampup_skipped_witness :
    |(4 : ℚ)| < 1000000000
    ∧ assignShareContainerToRegions ⟨false, false, "", 0, false, 4, false, false⟩
      = some .skipped :=
  ⟨by norm_num,
   assignShare_empty_owner_post_rampup_skipped.2.2 4 (by norm_num)⟩

/-- C3: when isolation is enabled, isolated pods exist and the isolation
safety check fails, the whole tick is re-run exactly once with isolation
disabled; a tick whose safety check passes runs only once; the check fails
precisely when the accumulated share+isolation size exceeds the non-binding
NUMA capacity. -/
theorem update_isolation_safety_retry (env : AdvisorEnv) (s : AdvisorState) (t : Int) :
    ((env.reserveExists = true ∧ env.assignOk = true ∧ env.isolatedPods ≠ []
        ∧ checkIsolationSafety env.safetyRegions env.nonBindingSize = false) →
      (cpuAdvisorUpdate env s).1 = [true, false])
    ∧ (checkIsolationSafety env.safetyRegions env.nonBindingSize = true →
        (cpuAdvisorUpdate env s).1 = [true])
    ∧ (cpuAdvisorUpdate env s).1.length ≤ 2
    ∧ (sumShareIso env.safetyRegions = some t →
        (checkIsolationSafety env.safetyRegions env.nonBindingSize = false
          ↔ env.nonBindingSize < t)) := by
  obtain ⟨re, pods, aok, regs, nbs, asm⟩ := env
  refine ⟨?_, ?_, ?_, ?_⟩
  · rintro ⟨hre, haok, hpods, hcs⟩
    have hpe : pods.isEmpty = false := by
      cases pods
      · simp at hpods
      · rfl
    subst hre haok
    simp [cpuAdvisorUpdate, updateWithIsolationGuardian, hpe, hcs]
  · intro hcs
    cases re <;> cases aok <;> cases hpe : pods.isEmpty <;>
      simp [cpuAdvisorUpdate, updateWithIsolationGuardian, hpe, hcs] <;>
      cases asm <;> simp
  · cases re <;> cases aok <;> cases hpe : pods.isEmpty <;>
      cases hcs : checkIsolationSafety regs nbs <;>
      simp [cpuAdvisorUpdate, updateWithIsolationGuardian, hpe, hcs] <;>
      cases asm <;> simp
  · intro hsum
    simp only [checkIsolationSafety, hsum]
    constructor
    · intro hd
      by_contra hnot
      simp [decide_eq_true (by omega : t ≤ nbs)] at hd
    · intro hlt
      simp [decide_eq_false (by omega : ¬t ≤ nbs)]

theorem update_isolation_safety_retry_witness :
    (safetyFailEnv.reserveExists = true ∧ safetyFailEnv.assignOk = true
      ∧ safetyFailEnv.isolatedPods ≠ []
      ∧ checkIsolationSafety safetyFailEnv.safetyRegions safetyFailEnv.nonBindingSize
        = false)
    ∧ (cpuAdvisorUpdate safetyFailEnv ⟨false⟩).1 = [true, false] := by
  have hcs : checkIsolationSafety safetyFailEnv.safetyRegions
      safetyFailEnv.nonBindingSize = false := by
    simp only [safetyFailEnv, checkIsolationSafety, sumShareIso, goTrunc_intCast]
    norm_num
  have hh : safetyFailEnv.reserveExists = true ∧ safetyFailEnv.assignOk = true
      ∧ safetyFailEnv.isolatedPods ≠ []
      ∧ checkIsolationSafety safetyFailEnv.safetyRegions safetyFailEnv.nonBindingSize
        = false := ⟨rfl, rfl, by simp [safetyFailEnv], hcs⟩
  exact ⟨hh, (update_isolation_safety_retry safetyFailEnv ⟨false⟩ 0).1 hh⟩

/-- C10 counterexample: the first tick fails (at provision assembly), so no
update() run ever completed — yet `advisorUpdated` was already set and
`GetHeadroom` serves the assembler's value instead of returning an error. -/
theorem getHeadroom_served_after_failed_first_update :
    (cpuAdvisorUpdate envAssembleFails ⟨false⟩).2.2 = .assembleFailed
    ∧ (cpuAdvisorUpdate envAssembleFails ⟨false⟩).2.1.advisorUpdated = true
    ∧ cpuGetHeadroom (cpuAdvisorUpdate envAssembleFails ⟨false⟩).2.1 (some 7) = some 7
    ∧ cpuGetHeadroom ⟨false⟩ (some 7) = none := by
  decide

/-- C10 (amended): `GetHeadroom` returns an error exactly while the
advisor-updated flag is unset; a tick sets the flag as soon as it passes the
reserve and assignment stages — before provision assembly — so a tick that
fails during assembly already enables headroom serving. -/
theorem getHeadroom_gate_tracks_flag (env : AdvisorEnv) (s : AdvisorState)
    (a : Option ℤ) :
    (cpuAdvisorUpdate env s).2.1.advisorUpdated
      = (s.advisorUpdated || reachedFlagPoint env)
    ∧ (s.advisorUpdated = false → cpuGetHeadroom s a = none)
    ∧ (s.advisorUpdated = true → cpuGetHeadroom s a = a) := by
  obtain ⟨re, pods, aok, regs, nbs, asm⟩ := env
  obtain ⟨su⟩ := s
  refine ⟨?_, ?_, ?_⟩
  · cases re <;> cases aok <;> cases hpe : pods.isEmpty <;>
      cases hcs : checkIsolationSafety regs nbs <;>
      cases asm <;> cases su <;>
      simp [cpuAdvisorUpdate, updateWithIsolationGuardian, reachedFlagPoint, hpe, hcs]
  · intro hsu
    subst hsu
    rfl
  · intro hsu
    subst hsu
    rfl

theorem getHeadroom_gate_tracks_flag_witness :
    (cpuAdvisorUpdate envAssembleFails ⟨false⟩).2.1.advisorUpdated
      = (false || reachedFlagPoint envAssembleFails)
    ∧ cpuGetHeadroom ⟨false⟩ (some 3) = none :=
  ⟨(getHeadroom_gate_tracks_flag envAssembleFails ⟨false⟩ (some 3)).1,
   (getHeadroom_gate_tracks_flag envAssembleFails ⟨false⟩ (some 3)).2.1 rfl⟩

/-- C1: for every DedicatedNumaExclusive region, `assembleDedicatedNE`
writes the reclaim pool entry exactly as the claim states: under cgroup-v2
unified mode `size = available` and `quota = max(reservedForReclaim,
available - nonReclaim)` capped by the quota knob; otherwise
`size = max(reservedForReclaim, available - nonReclaim)` with no quota. -/
theorem assembleDedicatedNE_formula (pa : AssemblerIn) (r : RegionIn)
    (res : CalcResult1) (knob : ControlKnob)
    (hty : r.rtype = .dedicatedNumaExclusive)
    (hk : r.provision = some knob) :
    (pa.isCgroupV2 = true →
      assembleDedicatedNE pa r res = some (res.setPoolEntry PoolNameReclaim
        (r.bindingNumas.headD 0)
        (getNUMAsResource pa.numaAvailable r.bindingNumas)
        (dneQuotaClaim pa r knob)))
    ∧ (pa.isCgroupV2 = false →
      assembleDedicatedNE pa r res = some (res.setPoolEntry PoolNameReclaim
        (r.bindingNumas.headD 0)
        (max (getNUMAsResource pa.reservedForReclaim r.bindingNumas)
          (getNUMAsResource pa.numaAvailable r.bindingNumas
            - dneNonReclaim pa r knob))
        (-1))) := by
  constructor
  · intro hv2
    simp only [assembleDedicatedNE, hty, hk, hv2, dneQuotaClaim, dneNonReclaim]
    cases her : r.enableReclaimPod <;>
      cases hq : knob.reclaimedCPUQuota <;>
      simp [her, hq]
  · intro hv2
    simp only [assembleDedicatedNE, hty, hk, hv2, dneNonReclaim]
    cases her : r.enableReclaimPod <;> simp [her]

theorem assembleDedicatedNE_formula_witness :
    dneIn.isCgroupV2 = true
    ∧ (assembleDedicatedNE dneIn dneRegion emptyRes1).map
        (fun res => res.getPoolEntry PoolNameReclaim 0) = some (some ⟨32, 12⟩) := by
  refine ⟨rfl, ?_⟩
  have h := (assembleDedicatedNE_formula dneIn dneRegion emptyRes1 dneKnob rfl rfl).1 rfl
  rw [h]
  simp only [CalcResult1.setPoolEntry, CalcResult1.getPoolEntry, aset, alookup,
    emptyRes1, dneQuotaClaim, dneNonReclaim, dneIn, dneRegion, dneKnob,
    getNUMAsResource, goTrunc_intCast]
  norm_num

set_option maxHeartbeats 1600000 in
/-- C6: the two `AssembleProvision` implementations are not equivalent.
(i) With no regions, overlap allowed: the first leaves `available`
unchanged and emits a non-binding reclaim pool of 10, the second adds
`reservedForReclaim` to `available` and emits 2.  (ii) With two share
pools whose knobs equal their requests: the first distributes the shared
overlap per pool as `size - requirement` (floored at 1 per pool, reclaim
2, overlap records 1/1), the second distributes a proportional share of
the total reclaim budget (here 0, no overlap records). -/
theorem assembleProvision_implementations_diverge :
    ((assembleProvision1 c6NoRegions).map
        (fun res => (res.getPoolEntry PoolNameReclaim FakedNUMAID).map
          (fun e => e.size)) = some (some 10))
    ∧ ((assembleProvision2 c6NoRegions).map
        (fun res => res.getPoolEntry PoolNameReclaim FakedNUMAID) = some (some 2))
    ∧ ((assembleProvision1 c6TwoSharePools).map
        (fun res =>
          ((res.getPoolEntry PoolNameReclaim FakedNUMAID).map (fun e => e.size),
           alookup res.poolOverlapInfo (PoolNameReclaim, FakedNUMAID, "share-a"),
           alookup res.poolOverlapInfo (PoolNameReclaim, FakedNUMAID, "share-b")))
        = some (some 2, some 1, some 1))
    ∧ ((assembleProvision2 c6TwoSharePools).map
        (fun res =>
          (res.getPoolEntry PoolNameReclaim FakedNUMAID,
           alookup res.poolOverlapInfo (PoolNameReclaim, FakedNUMAID, "share-a"),
           alookup res.poolOverlapInfo (PoolNameReclaim, FakedNUMAID, "share-b")))
        = some (some 0, none, none)) := by
  refine ⟨by decide, by decide, by decide, ?_⟩
  have hgr : goRound 0 = 0 := by norm_num [goRound]
  norm_num +decide [assembleProvision2, regionFold2, c6TwoSharePools, regulatePoolSizes2, hgr,
    regulatePoolSizes, proportionalAssign, sumVals, mergeMapInt, getNUMAsResource,
    alookup, aset, sortedByValue, insertByValue, goRound, goTrunc,
    CalcResult2.setPoolEntry, CalcResult2.getPoolEntry, CalcResult2.setPoolOverlapInfo,
    regionsOn, collectProvisions, PoolNameReclaim, PoolNameReserve, FakedNUMAID]

end Katalyst
